import Mathlib

/-!
# Program and results-file readers: a verification development

Shallow embedding of `src/data/program.js` and `src/data/results-file.js`.

* JavaScript values are the primitives that reach these helpers: `undefined`,
  `null`, booleans, numbers and strings.  Numbers are the integer-valued ones
  (identifiers); the integer is the exact value of the double.
* An object is its list of own properties.  The helpers only ever read the
  properties `id`, `eventID`, `raceID` and `programID`, none of which exists on
  `Object.prototype`, so a read of an absent property is `undefined`.
* The spreadsheet service is an environment: for a file id and a range name it
  yields the grid of display strings, or the exception thrown on the way.
* A function that can throw returns `Except JSError _`.
-/

namespace DataCraft

/-! ## Values -/

/-- Primitive JavaScript values.  `num n` is the number whose value is the integer `n`. -/
inductive JSValue where
  | undefined
  | null
  | bool (b : Bool)
  | num (n : Int)
  | str (s : String)
  deriving DecidableEq

/-- ECMAScript `WhiteSpace` and `LineTerminator` code points, the ones `StringToNumber` strips. -/
def isWhiteSpace (c : Char) : Bool :=
  let n := c.toNat
  n = 9 || n = 10 || n = 11 || n = 12 || n = 13 || n = 32 || n = 160 || n = 5760 ||
  (8192 ≤ n && n ≤ 8202) || n = 8232 || n = 8233 || n = 8239 || n = 8287 || n = 12288 ||
  n = 65279

/-- Value of a decimal digit, `none` for any other character. -/
def digitValue (c : Char) : Option Nat :=
  if 48 ≤ c.toNat ∧ c.toNat ≤ 57 then some (c.toNat - 48) else none

/-- Reads a run of decimal digits, most significant first, on top of `acc`. -/
def parseDigits : List Char → Nat → Option Nat
  | [], acc => some acc
  | c :: cs, acc =>
    match digitValue c with
    | some d => parseDigits cs (acc * 10 + d)
    | none => none

/-- A non-empty run of decimal digits. -/
def parseUnsigned (cs : List Char) : Option Nat :=
  match cs with
  | [] => none
  | _ :: _ => parseDigits cs 0

/-- Strips white space at both ends. -/
def trimWhiteSpace (cs : List Char) : List Char :=
  ((cs.dropWhile isWhiteSpace).reverse.dropWhile isWhiteSpace).reverse

/-- The conversion `StringToNumber` on the integer fragment: the trimmed text is empty (`0`) or an
optionally signed run of decimal digits.  `none` is `NaN`; literals with a fraction, an
exponent, a radix prefix or `Infinity` lie outside the integer fragment and are `none` too. -/
def stringToNumber (s : String) : Option Int :=
  match trimWhiteSpace s.toList with
  | [] => some 0
  | c :: rest =>
    if c = '-' then (parseUnsigned rest).map (fun n => -(n : Int))
    else if c = '+' then (parseUnsigned rest).map (fun n => (n : Int))
    else (parseUnsigned (c :: rest)).map (fun n => (n : Int))

/-- The conversion `ToNumber` on primitives; `none` is `NaN`. -/
def toNumber : JSValue → Option Int
  | .undefined => none
  | .null => some 0
  | .bool b => some (if b then 1 else 0)
  | .num n => some n
  | .str s => stringToNumber s

/-- The conversion `ToBoolean` on primitives. -/
def truthy : JSValue → Bool
  | .undefined => false
  | .null => false
  | .bool b => b
  | .num n => decide (n ≠ 0)
  | .str s => decide (s ≠ "")

/-- The operator `===` on primitives. -/
def strictEquals (a b : JSValue) : Bool := decide (a = b)

/-- The operator `==` on primitives: equal types compare strictly, `null` and `undefined`
are equal to each other only, a number and a string compare through `ToNumber` of the string,
and a boolean is first turned into a number. -/
def looseEquals : JSValue → JSValue → Bool
  | .undefined, .undefined => true
  | .undefined, .null => true
  | .null, .undefined => true
  | .null, .null => true
  | .bool a, .bool b => decide (a = b)
  | .num a, .num b => decide (a = b)
  | .str a, .str b => decide (a = b)
  | .num a, .str s => decide (stringToNumber s = some a)
  | .str s, .num a => decide (stringToNumber s = some a)
  | .bool a, .num b => decide ((if a then 1 else 0) = b)
  | .num a, .bool b => decide (a = (if b then 1 else 0))
  | .bool a, .str s => decide (stringToNumber s = some (if a then 1 else 0))
  | .str s, .bool b => decide (stringToNumber s = some (if b then 1 else 0))
  | _, _ => false

/-- The method `Array.prototype.includes` (`SameValueZero`, which on these values is identity of value). -/
def includes (xs : List JSValue) (v : JSValue) : Bool := xs.contains v

/-- The operator `-`: both operands go through `ToNumber`; `none` is `NaN`. -/
def subtract (a b : JSValue) : Option Int :=
  match toNumber a, toNumber b with
  | some x, some y => some (x - y)
  | _, _ => none

/-- Digit character of a value below ten. -/
def digitChar (d : Nat) : Char := Char.ofNat (48 + d)

/-- Decimal digits of `n` pushed in front of `acc`; `fuel` bounds the number of digits. -/
def natDigitsAux : Nat → Nat → List Char → List Char
  | 0, _, acc => acc
  | fuel + 1, n, acc =>
    if n < 10 then digitChar n :: acc
    else natDigitsAux fuel (n / 10) (digitChar (n % 10) :: acc)

/-- Decimal digits of a natural number, most significant first. -/
def natDigits (n : Nat) : List Char := natDigitsAux (n + 1) n []

/-- Decimal rendering of an integer: the digits, after a minus sign when negative. -/
def decimalString : Int → String
  | Int.ofNat n => String.mk (natDigits n)
  | Int.negSucc n => String.mk ('-' :: natDigits (n + 1))

/-! ## Objects -/

/-- An object: its own properties, each name once, in the order of their creation.  (The
engine lists integer-like names first; the helpers never observe the order.) -/
structure Record where
  fields : List (String × JSValue)
  deriving DecidableEq

/-- The object literal `{}`. -/
def Record.empty : Record := ⟨[]⟩

/-- Own property `key`, when there is one. -/
def Record.own (r : Record) (key : String) : Option JSValue :=
  (r.fields.find? (fun kv => decide (kv.1 = key))).map (fun kv => kv.2)

/-- Whether `key` is an own property. -/
def Record.hasOwn (r : Record) (key : String) : Bool := (r.own key).isSome

/-- Property read `r.key` for a name that `Object.prototype` does not define. -/
def Record.get (r : Record) (key : String) : JSValue := (r.own key).getD JSValue.undefined

/-- Assignment `r[key] = v` of a primitive.  The name `__proto__` reaches the setter
inherited from `Object.prototype`, which ignores a value that is neither an object nor
`null` (ECMAScript B.2.2.1), so nothing is stored; `JSValue.null` never occurs on the right
of an assignment in the helpers.  Any other name is overwritten in place or appended. -/
def Record.set (r : Record) (key : String) (v : JSValue) : Record :=
  if key = "__proto__" then r
  else if r.fields.any (fun kv => decide (kv.1 = key)) then
    ⟨r.fields.map (fun kv => if kv.1 = key then (key, v) else kv)⟩
  else ⟨r.fields ++ [(key, v)]⟩

/-! ## `Array.prototype.sort` -/

/-- Puts `x` in front of an already ordered list: it moves right past every `y` for which
the comparator says `x` goes after `y` (a strictly positive number), and stops at the first
`y` for which it does not (a negative number, zero or `NaN`). -/
def sortInsert {α : Type} (compareFn : α → α → Option Int) (x : α) : List α → List α
  | [] => [x]
  | y :: ys =>
    match compareFn x y with
    | some v => if 0 < v then y :: sortInsert compareFn x ys else x :: y :: ys
    | none => x :: y :: ys

/-- Stable sort by a comparator.  ECMAScript fixes the result when the comparator is
consistent (then every stable sort agrees with this one); for an inconsistent comparator the
order is implementation-defined and this is one permitted outcome. -/
def arraySort {α : Type} (compareFn : α → α → Option Int) : List α → List α
  | [] => []
  | x :: xs => sortInsert compareFn x (arraySort compareFn xs)

/-! ## `src/data/program.js`: `getRacePrograms` -/

/-- The `forEach` loop of `getRacePrograms`: the program ids related to the race, each once,
in order of first occurrence. -/
def raceProgramIds (programRaceRelationships : List Record) (race : Record) : List JSValue :=
  programRaceRelationships.foldl
    (fun ids relationship =>
      if strictEquals (relationship.get "raceID") (race.get "id")
          && !(includes ids (relationship.get "programID")) then
        ids ++ [relationship.get "programID"]
      else ids)
    []

/-- The function `getRacePrograms(programs, programRaceRelationships, race)`. -/
def getRacePrograms (programs programRaceRelationships : List Record) (race : Record) :
    List Record :=
  arraySort (fun programA programB => subtract (programA.get "id") (programB.get "id"))
    (programs.filter
      (fun program => includes (raceProgramIds programRaceRelationships race) (program.get "id")))

/-! ## The spreadsheet service -/

/-- A thrown exception. -/
structure JSError where
  message : String
  deriving DecidableEq

/-- What `getDisplayValues()` returns: rows of display strings. -/
abbrev Grid := List (List String)

/-- The service behind `SpreadsheetApp.openById(id).getRangeByName(name).getDisplayValues()`:
the grid, or the exception raised by any of the three calls (unknown file, `null` range). -/
structure SpreadsheetApp where
  displayValues : String → String → Except JSError Grid

/-- Element read `row[i]`: the string, or `undefined` past the end. -/
def cellAt (row : List String) (i : Nat) : JSValue :=
  match row[i]? with
  | some s => JSValue.str s
  | none => JSValue.undefined

/-- The row filter `.filter((record) => record[0])`. -/
def nonBlankRows (grid : Grid) : Grid :=
  grid.filter (fun record => truthy (cellAt record 0))

/-! ## `src/data/program.js`: the readers -/

/-- The constant `hiddenFields`. -/
def hiddenFields : List String := ["races"]

/-- The inner `tableProgramFields.map((key, columnIndex) => ...)`, from column `columnIndex`
on, applied to the object built so far. -/
def programFromRow (tableProgramRecord : List String) : List String → Nat → Record → Record
  | [], _, program => program
  | key :: keys, columnIndex, program =>
    programFromRow tableProgramRecord keys (columnIndex + 1)
      (if !(hiddenFields.contains key) then program.set key (cellAt tableProgramRecord columnIndex)
       else program)

/-- The statements after the `try` block of `getProgramsByDatabaseSheetId`, on the rows kept
by the filter: `shift()` takes the first row as the field names (on an empty array it gives
`undefined` and leaves no row to map), and every other row becomes one object. -/
def programsFromTable (tableProgram : Grid) : List Record :=
  match tableProgram with
  | [] => []
  | tableProgramFields :: tableProgramRecords =>
    tableProgramRecords.map
      (fun tableProgramRecord =>
        programFromRow tableProgramRecord tableProgramFields 0 Record.empty)

/-- The function `getProgramsByDatabaseSheetId(databaseSheetId)`: the `catch` clause returns
`[]` for whatever the read throws. -/
def getProgramsByDatabaseSheetId (app : SpreadsheetApp) (databaseSheetId : String) :
    Except JSError (List Record) :=
  match app.displayValues databaseSheetId "TableProgram" with
  | .error _ => .ok []
  | .ok grid => .ok (programsFromTable (nonBlankRows grid))

/-- The inner `tableResultsFileFields.map((key, columnIndex) => ...)`, from column
`columnIndex` on.  `getBoolean` is the coercion helper, which lives outside these files. -/
def resultsFileFromRow (getBoolean : JSValue → Bool) (tableResultsFileRecord : List String) :
    List String → Nat → Record → Record
  | [], _, resultsFile => resultsFile
  | key :: keys, columnIndex, resultsFile =>
    resultsFileFromRow getBoolean tableResultsFileRecord keys (columnIndex + 1)
      (if truthy (JSValue.str key) then
        resultsFile.set key
          (if key = "active" then
            JSValue.bool (getBoolean (cellAt tableResultsFileRecord columnIndex))
           else cellAt tableResultsFileRecord columnIndex)
       else resultsFile)

/-- The statements of `getresultsFilesByDatabaseSheetId` after the read, on the rows kept by
the filter: `shift()` takes the first row as the field names (on an empty array it gives
`undefined` and leaves no row to map), and every other row becomes one object. -/
def resultsFilesFromTable (getBoolean : JSValue → Bool) (tableResultsFile : Grid) :
    List Record :=
  match tableResultsFile with
  | [] => []
  | tableResultsFileFields :: tableResultsFileRecords =>
    tableResultsFileRecords.map
      (fun tableResultsFileRecord =>
        resultsFileFromRow getBoolean tableResultsFileRecord tableResultsFileFields 0
          Record.empty)

/-- The function `getresultsFilesByDatabaseSheetId(databaseSheetId)`: there is no `try`, an
exception of the read leaves the function.  The range name `RANGE_TABLE_RESULTS_FILE` is a
global defined outside these files. -/
def getresultsFilesByDatabaseSheetId (app : SpreadsheetApp) (RANGE_TABLE_RESULTS_FILE : String)
    (getBoolean : JSValue → Bool) (databaseSheetId : String) : Except JSError (List Record) :=
  match app.displayValues databaseSheetId RANGE_TABLE_RESULTS_FILE with
  | .error e => .error e
  | .ok grid => .ok (resultsFilesFromTable getBoolean (nonBlankRows grid))

/-- The function `getResultsFilesByRaceIds(databaseSheetId, raceIds)`. -/
def getResultsFilesByRaceIds (app : SpreadsheetApp) (RANGE_TABLE_RESULTS_FILE : String)
    (getBoolean : JSValue → Bool) (databaseSheetId : String) (raceIds : List JSValue) :
    Except JSError (List Record) :=
  match getresultsFilesByDatabaseSheetId app RANGE_TABLE_RESULTS_FILE getBoolean
      databaseSheetId with
  | .error e => .error e
  | .ok seasonResultsFiles =>
    .ok (seasonResultsFiles.filter (fun file => includes raceIds (file.get "raceID")))

/-! ## Rows with content, in the words of the specification -/

/-- Whether the first cell of a row is a non-empty string. -/
def firstCellNonEmpty (row : List String) : Bool :=
  match row with
  | [] => false
  | cell :: _ => decide (cell ≠ "")

/-- The sub-list of the rows of a grid whose first cell is a non-empty string, in grid
order. -/
def rowsWithContent (grid : Grid) : Grid := grid.filter firstCellNonEmpty

/-! ## `getRacePrograms` on a heap

Arrays and objects are mutable and passed by reference.  To speak of what a call leaves
untouched, the function is run here on a heap: arrays live at addresses and hold references
to objects.  `filter` allocates a new array, `sort` overwrites the array it is called on and
returns that same array; the array `raceProgramIds` is local and never shared. -/

/-- The objects and the arrays of object references that are alive. -/
structure Heap where
  objects : List Record
  arrays : List (List Nat)

/-- The object behind a reference. -/
def Heap.object (h : Heap) (ref : Nat) : Record := (h.objects[ref]?).getD Record.empty

/-- The elements of the array at an address. -/
def Heap.array (h : Heap) (address : Nat) : List Nat := (h.arrays[address]?).getD []

/-- A new array with the given elements; its address is the first free one. -/
def Heap.alloc (h : Heap) (elements : List Nat) : Nat × Heap :=
  (h.arrays.length, ⟨h.objects, h.arrays ++ [elements]⟩)

/-- Overwrites the elements of the array at an address. -/
def Heap.store (h : Heap) (address : Nat) (elements : List Nat) : Heap :=
  ⟨h.objects, h.arrays.set address elements⟩

/-- The function `getRacePrograms` on the heap: `programs` and `programRaceRelationships`
are addresses of arrays, `race` is a reference to an object; the result is the address of
the returned array and the heap after the call. -/
def getRaceProgramsOnHeap (h : Heap) (programs programRaceRelationships race : Nat) :
    Nat × Heap :=
  let ids := raceProgramIds ((h.array programRaceRelationships).map h.object) (h.object race)
  let filtered := h.alloc
    ((h.array programs).filter (fun program => includes ids ((h.object program).get "id")))
  let sorted := arraySort
    (fun programA programB =>
      subtract ((filtered.2.object programA).get "id") ((filtered.2.object programB).get "id"))
    (filtered.2.array filtered.1)
  (filtered.1, filtered.2.store filtered.1 sorted)

/-! ## Sample data -/

/-- A service whose every read yields a program table of two records, with a blank row and
a "races" column. -/
def sampleProgramStore : SpreadsheetApp :=
  ⟨fun _ _ => .ok [["id", "eventID", "races"], ["1", "7", "R1"], ["", "", ""],
    ["2", "8", "R2"]]⟩

/-- A service whose every read yields a results-file table of two records. -/
def sampleResultsStore : SpreadsheetApp :=
  ⟨fun _ _ => .ok [["raceID", "active"], ["R1", "TRUE"], ["R2", "FALSE"]]⟩

/-- A stand-in for the coercion helper: only the text "TRUE" is truthy. -/
def sampleGetBoolean (v : JSValue) : Bool := decide (v = JSValue.str "TRUE")

/-- A heap with two program objects (ids 10 and 2), two relationships to race "R1", the race
object, the array of programs at address 0 and the array of relationships at address 1. -/
def sampleHeap : Heap :=
  ⟨[⟨[("id", JSValue.num 10)]⟩, ⟨[("id", JSValue.num 2)]⟩,
    ⟨[("programID", JSValue.num 10), ("raceID", JSValue.str "R1")]⟩,
    ⟨[("programID", JSValue.num 2), ("raceID", JSValue.str "R1")]⟩,
    ⟨[("id", JSValue.str "R1")]⟩],
   [[0, 1], [2, 3]]⟩

/-- A service whose program table has a column named `__proto__`, all names distinct. -/
def protoProgramStore : SpreadsheetApp :=
  ⟨fun _ _ => .ok [["id", "__proto__"], ["1", "x"]]⟩

/-- A service whose results-file table has a column named `__proto__`. -/
def protoResultsStore : SpreadsheetApp :=
  ⟨fun _ _ => .ok [["raceID", "__proto__"], ["R1", "x"]]⟩

/-- A service whose program table has a blank header name and a column named `__proto__`. -/
def blankNameProgramStore : SpreadsheetApp :=
  ⟨fun _ _ => .ok [["id", "", "__proto__"], ["1", "a", "x"]]⟩

/-- A service whose program table has only blank rows and whose results-file table has only
a header row. -/
def degenerateStore : SpreadsheetApp :=
  ⟨fun _ name =>
    if name = "TableProgram" then .ok [["", "x"], ["", "y"]] else .ok [["raceID", "active"]]⟩

/-! ## Lemmas: sorting -/

theorem sortInsert_perm {α : Type} (compareFn : α → α → Option Int) (x : α) (l : List α) :
    (sortInsert compareFn x l).Perm (x :: l) := by
  induction l with
  | nil => exact List.Perm.refl _
  | cons y ys ih =>
    unfold sortInsert
    cases h : compareFn x y with
    | none => exact List.Perm.refl _
    | some v =>
      by_cases hv : 0 < v
      · simp only [hv, if_true]
        exact ((List.Perm.cons y ih).trans (List.Perm.swap x y ys))
      · simp only [hv, if_false]
        exact List.Perm.refl _

theorem arraySort_perm {α : Type} (compareFn : α → α → Option Int) (l : List α) :
    (arraySort compareFn l).Perm l := by
  induction l with
  | nil => exact List.Perm.refl _
  | cons x xs ih =>
    unfold arraySort
    exact (sortInsert_perm compareFn x _).trans (List.Perm.cons x ih)

theorem includes_iff (xs : List JSValue) (v : JSValue) : includes xs v = true ↔ v ∈ xs := by
  simp [includes]

theorem mem_foldl_raceProgramIds (race : Record) (rels : List Record) (acc : List JSValue)
    (v : JSValue) :
    v ∈ rels.foldl
        (fun ids relationship =>
          if strictEquals (relationship.get "raceID") (race.get "id")
              && !(includes ids (relationship.get "programID")) then
            ids ++ [relationship.get "programID"]
          else ids)
        acc ↔
      v ∈ acc ∨ ∃ r ∈ rels, r.get "raceID" = race.get "id" ∧ r.get "programID" = v := by
  induction rels generalizing acc with
  | nil => simp
  | cons r rs ih =>
    rw [List.foldl_cons, ih, List.exists_mem_cons_iff]
    by_cases h1 : r.get "raceID" = race.get "id"
    · have e1 : strictEquals (r.get "raceID") (race.get "id") = true := by
        simp [strictEquals, h1]
      by_cases h2 : r.get "programID" ∈ acc
      · have e2 : includes acc (r.get "programID") = true := (includes_iff _ _).mpr h2
        rw [e1, e2]
        simp only [Bool.not_true, Bool.and_false, Bool.false_eq_true, if_false]
        constructor
        · rintro (h | h)
          · exact Or.inl h
          · exact Or.inr (Or.inr h)
        · rintro (h | ⟨-, rfl⟩ | h)
          · exact Or.inl h
          · exact Or.inl h2
          · exact Or.inr h
      · have e2 : includes acc (r.get "programID") = false := by
          rw [← Bool.not_eq_true, includes_iff]; exact h2
        rw [e1, e2]
        simp only [Bool.not_false, Bool.and_true, if_true, List.mem_append, List.mem_singleton]
        constructor
        · rintro ((h | rfl) | h)
          · exact Or.inl h
          · exact Or.inr (Or.inl ⟨h1, rfl⟩)
          · exact Or.inr (Or.inr h)
        · rintro (h | ⟨-, rfl⟩ | h)
          · exact Or.inl (Or.inl h)
          · exact Or.inl (Or.inr rfl)
          · exact Or.inr h
    · have e1 : strictEquals (r.get "raceID") (race.get "id") = false := by
        simp [strictEquals, h1]
      rw [e1]
      simp only [Bool.false_and, Bool.false_eq_true, if_false]
      constructor
      · rintro (h | h)
        · exact Or.inl h
        · exact Or.inr (Or.inr h)
      · rintro (h | ⟨h, -⟩ | h)
        · exact Or.inl h
        · exact absurd h h1
        · exact Or.inr h

theorem mem_raceProgramIds (rels : List Record) (race : Record) (v : JSValue) :
    v ∈ raceProgramIds rels race ↔
      ∃ r ∈ rels, r.get "raceID" = race.get "id" ∧ r.get "programID" = v := by
  unfold raceProgramIds
  rw [mem_foldl_raceProgramIds]
  simp

theorem includes_raceProgramIds (rels : List Record) (race : Record) (v : JSValue) :
    includes (raceProgramIds rels race) v =
      rels.any (fun r => decide (r.get "raceID" = race.get "id") &&
        decide (r.get "programID" = v)) := by
  rw [Bool.eq_iff_iff]
  simp only [includes_iff, mem_raceProgramIds, List.any_eq_true,
    Bool.and_eq_true, decide_eq_true_eq]

theorem getRacePrograms_perm_filter (programs rels : List Record) (race : Record) :
    (getRacePrograms programs rels race).Perm
      (programs.filter (fun p => rels.any (fun r =>
        decide (r.get "raceID" = race.get "id") &&
          decide (r.get "programID" = p.get "id")))) := by
  unfold getRacePrograms
  refine (arraySort_perm _ _).trans ?_
  simp only [includes_raceProgramIds]
  exact List.Perm.refl _

/-! ## Race-program join -/

/-- C1. A program is in the output of `getRacePrograms` exactly when it is one of `programs`
and some relationship pairs its id with the id of the race; the output is a permutation of
the sub-list of `programs` that meet this condition.  On programs 2, 10, 5, of which 2 and
10 are related to race "R1" and 5 to race "R2", the output for "R1" is 2, 10. -/
theorem getRacePrograms_membership (programs rels : List Record) (race : Record) :
    (∀ p : Record, p ∈ getRacePrograms programs rels race ↔
        p ∈ programs ∧
          ∃ r ∈ rels, r.get "raceID" = race.get "id" ∧ r.get "programID" = p.get "id") ∧
      (getRacePrograms programs rels race).Perm
        (programs.filter (fun p => rels.any (fun r =>
          decide (r.get "raceID" = race.get "id") &&
            decide (r.get "programID" = p.get "id")))) ∧
      getRacePrograms
          [⟨[("id", JSValue.num 2)]⟩, ⟨[("id", JSValue.num 10)]⟩, ⟨[("id", JSValue.num 5)]⟩]
          [⟨[("programID", JSValue.num 2), ("raceID", JSValue.str "R1")]⟩,
           ⟨[("programID", JSValue.num 10), ("raceID", JSValue.str "R1")]⟩,
           ⟨[("programID", JSValue.num 5), ("raceID", JSValue.str "R2")]⟩]
          ⟨[("id", JSValue.str "R1")]⟩ =
        [⟨[("id", JSValue.num 2)]⟩, ⟨[("id", JSValue.num 10)]⟩] := by
  refine ⟨fun p => ?_, getRacePrograms_perm_filter programs rels race, by decide⟩
  rw [(getRacePrograms_perm_filter programs rels race).mem_iff]
  simp only [List.mem_filter, List.any_eq_true, Bool.and_eq_true, decide_eq_true_eq]

/-- C3. When exactly one of `programs` has id `i` and the pair (`programID` = `i`,
`raceID` = `race.id`) occurs at least twice among the relationships, exactly one element of
the output of `getRacePrograms` has id `i`, and that program occurs in the output exactly
once. -/
theorem getRacePrograms_dedup (programs rels : List Record) (race : Record) (i : JSValue)
    (hone : programs.countP (fun p => decide (p.get "id" = i)) = 1)
    (htwice : 2 ≤ rels.countP (fun r =>
      decide (r.get "programID" = i) && decide (r.get "raceID" = race.get "id"))) :
    (getRacePrograms programs rels race).countP (fun p => decide (p.get "id" = i)) = 1 ∧
      ∀ p ∈ programs, p.get "id" = i → (getRacePrograms programs rels race).count p = 1 := by
  obtain ⟨r, hr, hri⟩ := List.countP_pos_iff.mp (Nat.lt_of_lt_of_le Nat.zero_lt_two htwice)
  simp only [Bool.and_eq_true, decide_eq_true_eq] at hri
  have hcount : (getRacePrograms programs rels race).countP
      (fun p => decide (p.get "id" = i)) = 1 := by
    rw [(getRacePrograms_perm_filter programs rels race).countP_eq, List.countP_filter,
      ← hone]
    apply List.countP_congr
    intro p _
    simp only [Bool.and_eq_true, decide_eq_true_eq, List.any_eq_true]
    constructor
    · exact fun h => h.1
    · intro h
      exact ⟨h, r, hr, hri.2, hri.1.trans h.symm⟩
  refine ⟨hcount, fun p hp hpi => ?_⟩
  have hin : p ∈ getRacePrograms programs rels race := by
    rw [(getRacePrograms_perm_filter programs rels race).mem_iff, List.mem_filter,
      List.any_eq_true]
    exact ⟨hp, r, hr, by simp [hri.2, hri.1.trans hpi.symm]⟩
  have hle : (getRacePrograms programs rels race).count p ≤
      (getRacePrograms programs rels race).countP (fun q => decide (q.get "id" = i)) := by
    unfold List.count
    apply List.countP_mono_left
    intro q _ hq
    have : q = p := by simpa using hq
    simp [this, hpi]
  have hpos : 0 < (getRacePrograms programs rels race).count p := List.count_pos_iff.mpr hin
  omega

theorem getRacePrograms_dedup_witness :
    [(⟨[("id", JSValue.num 2)]⟩ : Record), ⟨[("id", JSValue.num 10)]⟩].countP
        (fun p => decide (p.get "id" = JSValue.num 2)) = 1 ∧
    2 ≤ [(⟨[("programID", JSValue.num 2), ("raceID", JSValue.str "R1")]⟩ : Record),
         ⟨[("programID", JSValue.num 10), ("raceID", JSValue.str "R1")]⟩,
         ⟨[("programID", JSValue.num 2), ("raceID", JSValue.str "R1")]⟩].countP
        (fun r => decide (r.get "programID" = JSValue.num 2) &&
          decide (r.get "raceID" = Record.get ⟨[("id", JSValue.str "R1")]⟩ "id")) ∧
    (getRacePrograms
        [(⟨[("id", JSValue.num 2)]⟩ : Record), ⟨[("id", JSValue.num 10)]⟩]
        [⟨[("programID", JSValue.num 2), ("raceID", JSValue.str "R1")]⟩,
         ⟨[("programID", JSValue.num 10), ("raceID", JSValue.str "R1")]⟩,
         ⟨[("programID", JSValue.num 2), ("raceID", JSValue.str "R1")]⟩]
        ⟨[("id", JSValue.str "R1")]⟩).countP
      (fun p => decide (p.get "id" = JSValue.num 2)) = 1 :=
  ⟨by decide, by decide,
    (getRacePrograms_dedup _ _ ⟨[("id", JSValue.str "R1")]⟩ (JSValue.num 2)
      (by decide) (by decide)).1⟩

/-! ## Lemmas: objects -/

theorem find_map_update_ne (l : List (String × JSValue)) (key k : String) (v : JSValue)
    (h : key ≠ k) :
    (l.map (fun kv => if kv.1 = key then (key, v) else kv)).find?
        (fun kv => decide (kv.1 = k)) =
      l.find? (fun kv => decide (kv.1 = k)) := by
  induction l with
  | nil => rfl
  | cons a l ih =>
    rw [List.map_cons]
    by_cases ha : a.1 = key
    · have hak : a.1 ≠ k := fun e => h (ha ▸ e)
      simp [List.find?_cons, ha, h, hak, ih]
    · rw [if_neg ha, List.find?_cons, List.find?_cons, ih]

theorem find_map_update_self (l : List (String × JSValue)) (key : String) (v : JSValue)
    (h : l.any (fun kv => decide (kv.1 = key)) = true) :
    (l.map (fun kv => if kv.1 = key then (key, v) else kv)).find?
        (fun kv => decide (kv.1 = key)) = some (key, v) := by
  induction l with
  | nil => simp at h
  | cons a l ih =>
    rw [List.map_cons]
    by_cases ha : a.1 = key
    · simp [List.find?_cons, ha]
    · have hl : l.any (fun kv => decide (kv.1 = key)) = true := by
        simpa [List.any_cons, ha] using h
      simp [List.find?_cons, ha, ih hl]

theorem own_set_ne (r : Record) (key k : String) (v : JSValue) (h : key ≠ k) :
    (r.set key v).own k = r.own k := by
  unfold Record.set
  by_cases hp : key = "__proto__"
  · simp [hp]
  · by_cases ha : r.fields.any (fun kv => decide (kv.1 = key)) = true
    · simp only [hp, ha, if_true, if_false, Record.own, find_map_update_ne _ _ _ _ h]
    · simp only [hp, ha, if_false, Record.own, List.find?_append]
      have hk : ¬ (key = k) := h
      cases hf : r.fields.find? (fun kv => decide (kv.1 = k)) <;>
        simp [hf, List.find?_cons, hk]

theorem own_set_self (r : Record) (key : String) (v : JSValue) (hp : key ≠ "__proto__") :
    (r.set key v).own key = some v := by
  unfold Record.set
  by_cases ha : r.fields.any (fun kv => decide (kv.1 = key)) = true
  · simp only [hp, ha, if_true, if_false, Record.own, find_map_update_self _ _ _ ha,
      Option.map_some']
  · simp only [hp, ha, if_false, Record.own, List.find?_append]
    have hn : r.fields.find? (fun kv => decide (kv.1 = key)) = none := by
      rw [List.find?_eq_none]
      intro x hx hxk
      exact ha (List.any_eq_true.mpr ⟨x, hx, hxk⟩)
    simp [hn, List.find?_cons]

theorem own_set_proto (r : Record) (v : JSValue) : r.set "__proto__" v = r := by
  simp [Record.set]

theorem own_empty (k : String) : Record.empty.own k = none := rfl

/-! ## Lemmas: the program reader -/

theorem own_races_programFromRow (row keys : List String) (columnIndex : Nat) (program : Record)
    (h : program.own "races" = none) :
    (programFromRow row keys columnIndex program).own "races" = none := by
  induction keys generalizing columnIndex program with
  | nil => exact h
  | cons key keys ih =>
    unfold programFromRow
    apply ih
    by_cases hk : key = "races"
    · simp [hiddenFields, hk, h]
    · have : hiddenFields.contains key = false := by simp [hiddenFields, hk]
      simp only [this, Bool.not_false, if_true]
      rw [own_set_ne _ _ _ _ hk]
      exact h

/-! ## Program reader -/

/-- C4. Whatever the spreadsheet service returns, `getProgramsByDatabaseSheetId` returns a
list of records none of which has an own property named "races", however many header cells
carry that name. -/
theorem getPrograms_hides_races (app : SpreadsheetApp) (databaseSheetId : String) :
    ∃ programs : List Record,
      getProgramsByDatabaseSheetId app databaseSheetId = .ok programs ∧
        ∀ program ∈ programs, program.own "races" = none ∧ program.hasOwn "races" = false := by
  unfold getProgramsByDatabaseSheetId
  cases app.displayValues databaseSheetId "TableProgram" with
  | error e => exact ⟨[], rfl, by simp⟩
  | ok grid =>
    refine ⟨_, rfl, ?_⟩
    intro program hp
    unfold programsFromTable at hp
    cases hrows : nonBlankRows grid with
    | nil => simp [hrows] at hp
    | cons fields rows =>
      rw [hrows] at hp
      obtain ⟨row, -, rfl⟩ := List.mem_map.mp hp
      have := own_races_programFromRow row fields 0 Record.empty (own_empty _)
      simp [Record.hasOwn, this]

theorem getPrograms_total (app : SpreadsheetApp) (databaseSheetId : String) :
    ∃ programs : List Record,
      getProgramsByDatabaseSheetId app databaseSheetId = .ok programs := by
  unfold getProgramsByDatabaseSheetId
  cases app.displayValues databaseSheetId "TableProgram" with
  | error e => exact ⟨[], rfl⟩
  | ok grid => exact ⟨_, rfl⟩

/-- C5. When the read of the named range 'TableProgram' fails, whatever the exception,
`getProgramsByDatabaseSheetId` returns the empty list; and on every outcome of the read,
failure or grid, it returns a list and does not throw. -/
theorem getPrograms_swallows_read_failure (app : SpreadsheetApp) (databaseSheetId : String) :
    (∀ e : JSError, app.displayValues databaseSheetId "TableProgram" = .error e →
        getProgramsByDatabaseSheetId app databaseSheetId = .ok []) ∧
      ∃ programs : List Record,
        getProgramsByDatabaseSheetId app databaseSheetId = .ok programs := by
  constructor
  · intro e he
    simp [getProgramsByDatabaseSheetId, he]
  · exact getPrograms_total app databaseSheetId

theorem getPrograms_swallows_read_failure_witness :
    (SpreadsheetApp.mk (fun _ _ => .error ⟨"no such file"⟩)).displayValues "0" "TableProgram" =
        .error ⟨"no such file"⟩ ∧
      getProgramsByDatabaseSheetId (SpreadsheetApp.mk (fun _ _ => .error ⟨"no such file"⟩)) "0" =
        .ok [] :=
  ⟨rfl, (getPrograms_swallows_read_failure
    (SpreadsheetApp.mk (fun _ _ => .error ⟨"no such file"⟩)) "0").1 ⟨"no such file"⟩ rfl⟩

/-! ## Results-file reader -/

/-- C6. `getresultsFilesByDatabaseSheetId` ends in an exception exactly when the read of the
named range does, and so does `getResultsFilesByRaceIds`; a failed read is passed on as the
same exception, so neither returns a list, empty or not, for a file or range that does not
exist. -/
theorem getresultsFiles_propagates_read_failure (app : SpreadsheetApp)
    (RANGE_TABLE_RESULTS_FILE : String) (getBoolean : JSValue → Bool)
    (databaseSheetId : String) (raceIds : List JSValue) :
    ((∃ e, getresultsFilesByDatabaseSheetId app RANGE_TABLE_RESULTS_FILE getBoolean
          databaseSheetId = .error e) ↔
        ∃ e, app.displayValues databaseSheetId RANGE_TABLE_RESULTS_FILE = .error e) ∧
      ((∃ e, getResultsFilesByRaceIds app RANGE_TABLE_RESULTS_FILE getBoolean
          databaseSheetId raceIds = .error e) ↔
        ∃ e, app.displayValues databaseSheetId RANGE_TABLE_RESULTS_FILE = .error e) ∧
      ∀ e, app.displayValues databaseSheetId RANGE_TABLE_RESULTS_FILE = .error e →
        getresultsFilesByDatabaseSheetId app RANGE_TABLE_RESULTS_FILE getBoolean
            databaseSheetId = .error e ∧
          getResultsFilesByRaceIds app RANGE_TABLE_RESULTS_FILE getBoolean
            databaseSheetId raceIds = .error e := by
  unfold getResultsFilesByRaceIds getresultsFilesByDatabaseSheetId
  cases app.displayValues databaseSheetId RANGE_TABLE_RESULTS_FILE with
  | error e => simp
  | ok grid => simp

theorem getresultsFiles_propagates_read_failure_witness :
    (SpreadsheetApp.mk (fun _ _ => .error ⟨"no such range"⟩)).displayValues "0" "TableResultsFile" =
        .error ⟨"no such range"⟩ ∧
      getresultsFilesByDatabaseSheetId (SpreadsheetApp.mk (fun _ _ => .error ⟨"no such range"⟩))
          "TableResultsFile" (fun _ => false) "0" = .error ⟨"no such range"⟩ ∧
      getResultsFilesByRaceIds (SpreadsheetApp.mk (fun _ _ => .error ⟨"no such range"⟩))
          "TableResultsFile" (fun _ => false) "0" [JSValue.str "R1"] =
        .error ⟨"no such range"⟩ :=
  ⟨rfl, (getresultsFiles_propagates_read_failure
    (SpreadsheetApp.mk (fun _ _ => .error ⟨"no such range"⟩)) "TableResultsFile"
    (fun _ => false) "0" [JSValue.str "R1"]).2.2 ⟨"no such range"⟩ rfl⟩

/-! ## Lemmas: the results-file reader -/

theorem own_resultsFileFromRow (getBoolean : JSValue → Bool) (row keys : List String)
    (hnd : keys.Nodup) (columnIndex : Nat) (resultsFile : Record) (k : String) :
    ((∀ j : Nat, keys[j]? = some k → k = "" ∨ k = "__proto__") →
        (resultsFileFromRow getBoolean row keys columnIndex resultsFile).own k =
          resultsFile.own k) ∧
      ∀ j : Nat, keys[j]? = some k → k ≠ "" → k ≠ "__proto__" →
        (resultsFileFromRow getBoolean row keys columnIndex resultsFile).own k =
          some (if k = "active" then JSValue.bool (getBoolean (cellAt row (columnIndex + j)))
            else cellAt row (columnIndex + j)) := by
  induction keys generalizing columnIndex resultsFile with
  | nil =>
    constructor
    · intro _; rfl
    · intro j hj; simp at hj
  | cons key rest ih =>
    obtain ⟨hnot, hrest⟩ := List.nodup_cons.mp hnd
    unfold resultsFileFromRow
    constructor
    · intro H
      rw [(ih hrest (columnIndex + 1) _).1 (fun j hj => H (j + 1) (by simpa using hj))]
      by_cases hk : key = k
      · rcases H 0 (by simp [hk]) with h | h
        · simp [hk, h, truthy]
        · subst hk
          simp [h, own_set_proto]
      · by_cases ht : truthy (JSValue.str key) = true
        · rw [if_pos ht, own_set_ne _ _ _ _ hk]
        · rw [if_neg ht]
    · intro j hj hne hproto
      cases j with
      | zero =>
        have hk : key = k := by simpa using hj
        subst hk
        have hvac : ∀ j : Nat, rest[j]? = some key → key = "" ∨ key = "__proto__" := by
          intro j hj
          exact absurd (List.getElem?_mem hj) hnot
        rw [(ih hrest (columnIndex + 1) _).1 hvac]
        have ht : truthy (JSValue.str key) = true := by simp [truthy, hne]
        rw [if_pos ht, own_set_self _ _ _ hproto]
        rfl
      | succ j =>
        have hj' : rest[j]? = some k := by simpa using hj
        rw [(ih hrest (columnIndex + 1) _).2 j hj' hne hproto]
        have : columnIndex + 1 + j = columnIndex + (j + 1) := by omega
        rw [this]

/-- C7. For a table whose header names are pairwise distinct, the records returned by
`getresultsFilesByDatabaseSheetId` pair off with the rows below the header, and in each
record: the property "active", when the header has that name at column `i`, is the boolean
`getBoolean(row[i])`; every other property carries a non-empty header name and its value is
the cell `row[i]` of that name's column `i`, unchanged; and every non-empty header name other
than "active" (and other than `__proto__`, for which an assignment stores nothing) is such a
property. -/
theorem getresultsFiles_field_values (app : SpreadsheetApp) (RANGE_TABLE_RESULTS_FILE : String)
    (getBoolean : JSValue → Bool) (databaseSheetId : String) (grid : Grid)
    (header : List String) (rows : List (List String))
    (hread : app.displayValues databaseSheetId RANGE_TABLE_RESULTS_FILE = .ok grid)
    (hrows : nonBlankRows grid = header :: rows) (hnd : header.Nodup) :
    ∃ files : List Record,
      getresultsFilesByDatabaseSheetId app RANGE_TABLE_RESULTS_FILE getBoolean databaseSheetId =
          .ok files ∧
        List.Forall₂
          (fun row file =>
            (∀ i : Nat, header[i]? = some "active" →
                Record.own file "active" = some (JSValue.bool (getBoolean (cellAt row i)))) ∧
              (∀ key v, Record.own file key = some v → key ≠ "active" →
                ∃ i : Nat, header[i]? = some key ∧ key ≠ "" ∧ v = cellAt row i) ∧
              ∀ (i : Nat) (key : String), header[i]? = some key → key ≠ "" → key ≠ "active" →
                key ≠ "__proto__" → Record.own file key = some (cellAt row i))
          rows files := by
  have hfiles : getresultsFilesByDatabaseSheetId app RANGE_TABLE_RESULTS_FILE getBoolean
      databaseSheetId =
        .ok (rows.map (fun row => resultsFileFromRow getBoolean row header 0 Record.empty)) := by
    simp [getresultsFilesByDatabaseSheetId, hread, hrows, resultsFilesFromTable]
  refine ⟨_, hfiles, ?_⟩
  rw [List.forall₂_map_right_iff, List.forall₂_same]
  intro row _
  have key := own_resultsFileFromRow getBoolean row header hnd 0 Record.empty
  refine ⟨?_, ?_, ?_⟩
  · intro i hi
    have := (key "active").2 i hi (by decide) (by decide)
    simpa using this
  · intro k v hv hk
    by_cases hskip : ∀ j : Nat, header[j]? = some k → k = "" ∨ k = "__proto__"
    · rw [(key k).1 hskip, own_empty] at hv
      exact absurd hv (by simp)
    · push_neg at hskip
      obtain ⟨j, hj, hne, hproto⟩ := hskip
      have := (key k).2 j hj hne hproto
      rw [hv, if_neg hk, Nat.zero_add] at this
      exact ⟨j, hj, hne, Option.some.inj this⟩
  · intro i k hi hne hk hproto
    have := (key k).2 i hi hne hproto
    rw [if_neg hk, Nat.zero_add] at this
    exact this

theorem getresultsFiles_field_values_witness :
    (SpreadsheetApp.mk (fun _ _ =>
        .ok [["raceID", "active", "name"], ["R1", "TRUE", "a"], ["", "x", "y"],
          ["R2", "no", "b"]])).displayValues "0" "TableResultsFile" =
        .ok [["raceID", "active", "name"], ["R1", "TRUE", "a"], ["", "x", "y"],
          ["R2", "no", "b"]] ∧
      nonBlankRows [["raceID", "active", "name"], ["R1", "TRUE", "a"], ["", "x", "y"],
          ["R2", "no", "b"]] =
        ["raceID", "active", "name"] :: [["R1", "TRUE", "a"], ["R2", "no", "b"]] ∧
      ["raceID", "active", "name"].Nodup ∧
      ∃ files : List Record,
        getresultsFilesByDatabaseSheetId
            (SpreadsheetApp.mk (fun _ _ =>
              .ok [["raceID", "active", "name"], ["R1", "TRUE", "a"], ["", "x", "y"],
                ["R2", "no", "b"]]))
            "TableResultsFile" (fun v => decide (v = JSValue.str "TRUE")) "0" = .ok files ∧
          List.Forall₂
            (fun row file =>
              (∀ i : Nat, ["raceID", "active", "name"][i]? = some "active" →
                  Record.own file "active" =
                    some (JSValue.bool (decide (cellAt row i = JSValue.str "TRUE")))) ∧
                (∀ key v, Record.own file key = some v → key ≠ "active" →
                  ∃ i : Nat, ["raceID", "active", "name"][i]? = some key ∧ key ≠ "" ∧
                    v = cellAt row i) ∧
                ∀ (i : Nat) (key : String), ["raceID", "active", "name"][i]? = some key →
                  key ≠ "" → key ≠ "active" → key ≠ "__proto__" →
                    Record.own file key = some (cellAt row i))
            [["R1", "TRUE", "a"], ["R2", "no", "b"]] files :=
  ⟨rfl, by decide, by decide,
    getresultsFiles_field_values
      (SpreadsheetApp.mk (fun _ _ =>
        .ok [["raceID", "active", "name"], ["R1", "TRUE", "a"], ["", "x", "y"],
          ["R2", "no", "b"]]))
      "TableResultsFile" (fun v => decide (v = JSValue.str "TRUE")) "0"
      [["raceID", "active", "name"], ["R1", "TRUE", "a"], ["", "x", "y"], ["R2", "no", "b"]]
      ["raceID", "active", "name"] [["R1", "TRUE", "a"], ["R2", "no", "b"]]
      rfl (by decide) (by decide)⟩

/-! ## Filters over the readers -/

/-- C10. When the read succeeds, `getResultsFilesByRaceIds` returns exactly the records of
`getresultsFilesByDatabaseSheetId` whose `raceID` is an element of `raceIds`: the filter of
that list, a subsequence of it in the same order; with `raceIds` empty the result is empty. -/
theorem getResultsFilesByRaceIds_exact_filter (app : SpreadsheetApp)
    (RANGE_TABLE_RESULTS_FILE : String) (getBoolean : JSValue → Bool)
    (databaseSheetId : String) (raceIds : List JSValue) (grid : Grid)
    (hread : app.displayValues databaseSheetId RANGE_TABLE_RESULTS_FILE = .ok grid) :
    ∃ files result : List Record,
      getresultsFilesByDatabaseSheetId app RANGE_TABLE_RESULTS_FILE getBoolean databaseSheetId =
          .ok files ∧
        getResultsFilesByRaceIds app RANGE_TABLE_RESULTS_FILE getBoolean databaseSheetId
          raceIds = .ok result ∧
        result = files.filter (fun file => decide (file.get "raceID" ∈ raceIds)) ∧
        result.Sublist files ∧
        (∀ file : Record, file ∈ result ↔ file ∈ files ∧ file.get "raceID" ∈ raceIds) ∧
        (∀ file : Record, file.get "raceID" ∈ raceIds → result.count file = files.count file) ∧
        (raceIds = [] → result = []) := by
  have hfiles : getresultsFilesByDatabaseSheetId app RANGE_TABLE_RESULTS_FILE getBoolean
      databaseSheetId = .ok (resultsFilesFromTable getBoolean (nonBlankRows grid)) := by
    simp [getresultsFilesByDatabaseSheetId, hread]
  have hfun : (fun file : Record => includes raceIds (file.get "raceID")) =
      (fun file : Record => decide (file.get "raceID" ∈ raceIds)) := by
    funext file
    rw [Bool.eq_iff_iff, includes_iff]
    simp
  have hres : getResultsFilesByRaceIds app RANGE_TABLE_RESULTS_FILE getBoolean databaseSheetId
      raceIds =
        .ok ((resultsFilesFromTable getBoolean (nonBlankRows grid)).filter
          (fun file => decide (file.get "raceID" ∈ raceIds))) := by
    simp [getResultsFilesByRaceIds, hfiles, hfun]
  refine ⟨_, _, hfiles, hres, rfl, List.filter_sublist _, ?_, ?_, ?_⟩
  · intro file
    simp [List.mem_filter]
  · intro file h
    exact List.count_filter (p := fun file : Record => decide (file.get "raceID" ∈ raceIds))
      (by simpa using h)
  · rintro rfl
    simp

theorem getResultsFilesByRaceIds_exact_filter_witness :
    sampleResultsStore.displayValues "0" "TableResultsFile" =
        .ok [["raceID", "active"], ["R1", "TRUE"], ["R2", "FALSE"]] ∧
      ∃ files result : List Record,
        getresultsFilesByDatabaseSheetId sampleResultsStore "TableResultsFile" sampleGetBoolean
            "0" = .ok files ∧
          getResultsFilesByRaceIds sampleResultsStore "TableResultsFile" sampleGetBoolean "0"
            [JSValue.str "R2"] = .ok result ∧
          result = files.filter (fun file => decide (file.get "raceID" ∈ [JSValue.str "R2"])) ∧
          result.Sublist files ∧
          (∀ file : Record, file ∈ result ↔
            file ∈ files ∧ file.get "raceID" ∈ [JSValue.str "R2"]) ∧
          (∀ file : Record, file.get "raceID" ∈ [JSValue.str "R2"] →
            result.count file = files.count file) ∧
          ([JSValue.str "R2"] = [] → result = []) :=
  ⟨rfl, getResultsFilesByRaceIds_exact_filter sampleResultsStore "TableResultsFile"
    sampleGetBoolean "0" [JSValue.str "R2"] _ rfl⟩

/-! ## Lemmas: rows with content -/

theorem truthy_first_cell (row : List String) :
    truthy (cellAt row 0) = firstCellNonEmpty row := by
  cases row with
  | nil => rfl
  | cons cell rest => simp [cellAt, truthy, firstCellNonEmpty]

theorem nonBlankRows_eq_rowsWithContent (grid : Grid) : nonBlankRows grid = rowsWithContent grid := by
  unfold nonBlankRows rowsWithContent
  congr 1
  funext row
  exact truthy_first_cell row

theorem getPrograms_of_grid (app : SpreadsheetApp) (databaseSheetId : String) (grid : Grid)
    (h : app.displayValues databaseSheetId "TableProgram" = .ok grid) :
    getProgramsByDatabaseSheetId app databaseSheetId =
      .ok (programsFromTable (rowsWithContent grid)) := by
  simp [getProgramsByDatabaseSheetId, h, nonBlankRows_eq_rowsWithContent]

theorem getresultsFiles_of_grid (app : SpreadsheetApp) (RANGE_TABLE_RESULTS_FILE : String)
    (getBoolean : JSValue → Bool) (databaseSheetId : String) (grid : Grid)
    (h : app.displayValues databaseSheetId RANGE_TABLE_RESULTS_FILE = .ok grid) :
    getresultsFilesByDatabaseSheetId app RANGE_TABLE_RESULTS_FILE getBoolean databaseSheetId =
      .ok (resultsFilesFromTable getBoolean (rowsWithContent grid)) := by
  simp [getresultsFilesByDatabaseSheetId, h, nonBlankRows_eq_rowsWithContent]

theorem programsFromTable_rows (table : Grid) :
    (programsFromTable table).length = table.length - 1 ∧
      List.Forall₂ (fun row program => program = programFromRow row (table.headD []) 0 Record.empty)
        table.tail (programsFromTable table) := by
  cases table with
  | nil => simp [programsFromTable]
  | cons header rows =>
    simp only [programsFromTable, List.length_map, List.length_cons, Nat.add_sub_cancel,
      List.tail_cons, List.headD_cons, true_and]
    rw [List.forall₂_map_right_iff, List.forall₂_same]
    intro row _
    rfl

theorem resultsFilesFromTable_rows (getBoolean : JSValue → Bool) (table : Grid) :
    (resultsFilesFromTable getBoolean table).length = table.length - 1 ∧
      List.Forall₂
        (fun row file => file = resultsFileFromRow getBoolean row (table.headD []) 0 Record.empty)
        table.tail (resultsFilesFromTable getBoolean table) := by
  cases table with
  | nil => simp [resultsFilesFromTable]
  | cons header rows =>
    simp only [resultsFilesFromTable, List.length_map, List.length_cons, Nat.add_sub_cancel,
      List.tail_cons, List.headD_cons, true_and]
    rw [List.forall₂_map_right_iff, List.forall₂_same]
    intro row _
    rfl

/-! ## Blank rows and the header -/

/-- C11. Let `R` be the rows of the grid whose first cell is a non-empty string, in grid
order.  Each reader, when its read succeeds, takes the first row of `R` as the header and
returns one record for each further row of `R`, in order, built from that row and the
header: there are `|R| - 1` records, none comes from a row with an empty first cell, and none
from the header row. -/
theorem readers_discard_blank_rows (app : SpreadsheetApp) (RANGE_TABLE_RESULTS_FILE : String)
    (getBoolean : JSValue → Bool) (databaseSheetId : String) :
    (∀ grid : Grid, app.displayValues databaseSheetId "TableProgram" = .ok grid →
      ∃ programs : List Record,
        getProgramsByDatabaseSheetId app databaseSheetId = .ok programs ∧
          programs.length = (rowsWithContent grid).length - 1 ∧
          List.Forall₂
            (fun row program =>
              program = programFromRow row ((rowsWithContent grid).headD []) 0 Record.empty)
            (rowsWithContent grid).tail programs ∧
          ∀ row ∈ (rowsWithContent grid).tail, firstCellNonEmpty row = true) ∧
      ∀ grid : Grid, app.displayValues databaseSheetId RANGE_TABLE_RESULTS_FILE = .ok grid →
        ∃ files : List Record,
          getresultsFilesByDatabaseSheetId app RANGE_TABLE_RESULTS_FILE getBoolean
              databaseSheetId = .ok files ∧
            files.length = (rowsWithContent grid).length - 1 ∧
            List.Forall₂
              (fun row file =>
                file = resultsFileFromRow getBoolean row ((rowsWithContent grid).headD []) 0
                  Record.empty)
              (rowsWithContent grid).tail files ∧
            ∀ row ∈ (rowsWithContent grid).tail, firstCellNonEmpty row = true := by
  constructor
  · intro grid hread
    refine ⟨_, getPrograms_of_grid app databaseSheetId grid hread,
      (programsFromTable_rows _).1, (programsFromTable_rows _).2, ?_⟩
    intro row hrow
    exact (List.mem_filter.mp (List.mem_of_mem_tail hrow)).2
  · intro grid hread
    refine ⟨_, getresultsFiles_of_grid app RANGE_TABLE_RESULTS_FILE getBoolean databaseSheetId
      grid hread, (resultsFilesFromTable_rows getBoolean _).1,
      (resultsFilesFromTable_rows getBoolean _).2, ?_⟩
    intro row hrow
    exact (List.mem_filter.mp (List.mem_of_mem_tail hrow)).2

theorem readers_discard_blank_rows_witness :
    sampleProgramStore.displayValues "0" "TableProgram" =
        .ok [["id", "eventID", "races"], ["1", "7", "R1"], ["", "", ""], ["2", "8", "R2"]] ∧
      rowsWithContent [["id", "eventID", "races"], ["1", "7", "R1"], ["", "", ""],
          ["2", "8", "R2"]] =
        [["id", "eventID", "races"], ["1", "7", "R1"], ["2", "8", "R2"]] ∧
      ∃ programs : List Record,
        getProgramsByDatabaseSheetId sampleProgramStore "0" = .ok programs ∧
          programs.length =
            (rowsWithContent [["id", "eventID", "races"], ["1", "7", "R1"], ["", "", ""],
              ["2", "8", "R2"]]).length - 1 :=
  ⟨rfl, by decide,
    ((readers_discard_blank_rows sampleProgramStore "TableResultsFile" sampleGetBoolean "0").1
      _ rfl).imp (fun _ h => ⟨h.1, h.2.1⟩)⟩

/-- C17. When the read succeeds and the grid has no row with a non-empty first cell, or has
exactly one such row (the header), the reader returns the empty list and does not throw; this
holds for `getProgramsByDatabaseSheetId` and for `getresultsFilesByDatabaseSheetId`. -/
theorem readers_degenerate_tables (app : SpreadsheetApp) (RANGE_TABLE_RESULTS_FILE : String)
    (getBoolean : JSValue → Bool) (databaseSheetId : String) :
    (∀ grid : Grid, app.displayValues databaseSheetId "TableProgram" = .ok grid →
        (rowsWithContent grid).length ≤ 1 →
        getProgramsByDatabaseSheetId app databaseSheetId = .ok []) ∧
      ∀ grid : Grid, app.displayValues databaseSheetId RANGE_TABLE_RESULTS_FILE = .ok grid →
        (rowsWithContent grid).length ≤ 1 →
        getresultsFilesByDatabaseSheetId app RANGE_TABLE_RESULTS_FILE getBoolean
          databaseSheetId = .ok [] := by
  constructor
  · intro grid hread h
    rw [getPrograms_of_grid app databaseSheetId grid hread]
    cases hR : rowsWithContent grid with
    | nil => rfl
    | cons header rows =>
      rw [hR] at h
      have : rows = [] := List.length_eq_zero.mp (by simpa using h)
      rw [this]
      rfl
  · intro grid hread h
    rw [getresultsFiles_of_grid app RANGE_TABLE_RESULTS_FILE getBoolean databaseSheetId grid
      hread]
    cases hR : rowsWithContent grid with
    | nil => rfl
    | cons header rows =>
      rw [hR] at h
      have : rows = [] := List.length_eq_zero.mp (by simpa using h)
      rw [this]
      rfl

theorem readers_degenerate_tables_witness :
    degenerateStore.displayValues "0" "TableProgram" = .ok [["", "x"], ["", "y"]] ∧
      degenerateStore.displayValues "0" "TableResultsFile" = .ok [["raceID", "active"]] ∧
      (rowsWithContent [["", "x"], ["", "y"]]).length ≤ 1 ∧
      (rowsWithContent [["raceID", "active"]]).length ≤ 1 ∧
      getProgramsByDatabaseSheetId degenerateStore "0" = .ok [] ∧
      getresultsFilesByDatabaseSheetId degenerateStore "TableResultsFile" sampleGetBoolean
          "0" = .ok [] :=
  ⟨rfl, rfl, by decide, by decide,
    (readers_degenerate_tables degenerateStore "TableResultsFile" sampleGetBoolean "0").1
      [["", "x"], ["", "y"]] rfl (by decide),
    (readers_degenerate_tables degenerateStore "TableResultsFile" sampleGetBoolean "0").2
      [["raceID", "active"]] rfl (by decide)⟩

/-! ## Lemmas: field names of the records -/

theorem hasOwn_set (r : Record) (key k : String) (v : JSValue) :
    (r.set key v).hasOwn k = (r.hasOwn k || (decide (key = k) && decide (key ≠ "__proto__"))) := by
  by_cases hk : key = k
  · subst hk
    by_cases hp : key = "__proto__"
    · subst hp
      simp [own_set_proto]
    · simp [Record.hasOwn, own_set_self _ _ _ hp, hp]
  · simp [Record.hasOwn, own_set_ne _ _ _ _ hk, hk]

theorem hasOwn_empty (k : String) : Record.empty.hasOwn k = false := rfl

theorem hasOwn_programFromRow (row keys : List String) (columnIndex : Nat) (program : Record)
    (k : String) :
    (programFromRow row keys columnIndex program).hasOwn k =
      (program.hasOwn k || decide (k ∈ keys ∧ k ≠ "races" ∧ k ≠ "__proto__")) := by
  induction keys generalizing columnIndex program with
  | nil => simp [programFromRow]
  | cons key rest ih =>
    unfold programFromRow
    rw [ih]
    by_cases hh : key = "races"
    · subst hh
      by_cases hk : k = "races"
      · simp [hiddenFields, hk]
      · simp [hiddenFields, hk]
    · have hc : hiddenFields.contains key = false := by simp [hiddenFields, hh]
      simp only [hc, Bool.not_false, if_true, hasOwn_set]
      by_cases hk : key = k
      · subst hk
        by_cases hp : key = "__proto__"
        · simp [hp]
        · simp [hp, hh]
      · have hk2 : ¬ k = key := fun e => hk e.symm
        simp [hk, hk2]

theorem hasOwn_resultsFileFromRow (getBoolean : JSValue → Bool) (row keys : List String)
    (columnIndex : Nat) (resultsFile : Record) (k : String) :
    (resultsFileFromRow getBoolean row keys columnIndex resultsFile).hasOwn k =
      (resultsFile.hasOwn k || decide (k ∈ keys ∧ k ≠ "" ∧ k ≠ "__proto__")) := by
  induction keys generalizing columnIndex resultsFile with
  | nil => simp [resultsFileFromRow]
  | cons key rest ih =>
    unfold resultsFileFromRow
    rw [ih]
    by_cases hh : key = ""
    · subst hh
      by_cases hk : k = ""
      · simp [truthy, hk]
      · simp [truthy, hk]
    · have hc : truthy (JSValue.str key) = true := by simp [truthy, hh]
      simp only [hc, if_true, hasOwn_set]
      by_cases hk : key = k
      · subst hk
        by_cases hp : key = "__proto__"
        · simp [hp]
        · simp [hp, hh]
      · have hk2 : ¬ k = key := fun e => hk e.symm
        simp [hk, hk2]

theorem own_programFromRow (row keys : List String) (columnIndex : Nat) (program : Record)
    (k : String) :
    ((∀ j : Nat, keys[j]? = some k → k = "races" ∨ k = "__proto__") →
        (programFromRow row keys columnIndex program).own k = program.own k) ∧
      ∀ j : Nat, keys[j]? = some k → (∀ i : Nat, j < i → keys[i]? ≠ some k) →
        k ≠ "races" → k ≠ "__proto__" →
        (programFromRow row keys columnIndex program).own k =
          some (cellAt row (columnIndex + j)) := by
  induction keys generalizing columnIndex program with
  | nil =>
    constructor
    · intro _; rfl
    · intro j hj; simp at hj
  | cons key rest ih =>
    unfold programFromRow
    constructor
    · intro H
      rw [(ih (columnIndex + 1) _).1 (fun j hj => H (j + 1) (by simpa using hj))]
      by_cases hk : key = k
      · rcases H 0 (by simp [hk]) with h | h
        · simp [hk, h, hiddenFields]
        · subst hk
          by_cases hc : hiddenFields.contains key = true
          · simp only [hc, Bool.not_true, Bool.false_eq_true, if_false]
          · simp only [hc, Bool.not_false, if_true, Bool.false_eq_true, if_false]
            rw [h, own_set_proto]
      · by_cases hc : hiddenFields.contains key = true
        · simp only [hc, Bool.not_true, Bool.false_eq_true, if_false]
        · simp only [hc, Bool.not_false, if_true, Bool.false_eq_true, if_false]
          rw [own_set_ne _ _ _ _ hk]
    · intro j hj hlast hraces hproto
      cases j with
      | zero =>
        have hk : key = k := by simpa using hj
        subst hk
        have hvac : ∀ j : Nat, rest[j]? = some key → key = "races" ∨ key = "__proto__" := by
          intro j hj
          exact absurd (by simpa using hj) (hlast (j + 1) (Nat.succ_pos j))
        rw [(ih (columnIndex + 1) _).1 hvac]
        have hc : hiddenFields.contains key = false := by simp [hiddenFields, hraces]
        simp only [hc, Bool.not_false, if_true]
        rw [own_set_self _ _ _ hproto]
        rfl
      | succ j =>
        have hj' : rest[j]? = some k := by simpa using hj
        have hlast' : ∀ i : Nat, j < i → rest[i]? ≠ some k := by
          intro i hi
          have := hlast (i + 1) (by omega)
          simpa using this
        rw [(ih (columnIndex + 1) _).2 j hj' hlast' hraces hproto]
        have : columnIndex + 1 + j = columnIndex + (j + 1) := by omega
        rw [this]

theorem nodup_last_occurrence (keys : List String) (hnd : keys.Nodup) (k : String) (j : Nat)
    (hj : keys[j]? = some k) : ∀ i : Nat, j < i → keys[i]? ≠ some k := by
  intro i hi h
  have hjl : j < keys.length := by
    rcases Nat.lt_or_ge j keys.length with h' | h'
    · exact h'
    · rw [List.getElem?_eq_none h'] at hj
      exact absurd hj (by simp)
  have hil : i < keys.length := by
    rcases Nat.lt_or_ge i keys.length with h' | h'
    · exact h'
    · rw [List.getElem?_eq_none h'] at h
      exact absurd h (by simp)
  have e1 : keys[j] = k := by
    rw [List.getElem?_eq_getElem hjl] at hj
    exact Option.some.inj hj
  have e2 : keys[i] = k := by
    rw [List.getElem?_eq_getElem hil] at h
    exact Option.some.inj h
  have := (List.Nodup.getElem_inj_iff hnd).mp (e1.trans e2.symm)
  omega

/-! ## Field names and values of the records -/

/-- Every record of `getProgramsByDatabaseSheetId` has as own properties exactly the header
names other than "races" and `__proto__`, and the value under such a name is the cell of the
row in the last column of that name. -/
theorem programs_fields_of_header (app : SpreadsheetApp) (databaseSheetId : String)
    (grid : Grid) (header : List String) (rows : List (List String))
    (hread : app.displayValues databaseSheetId "TableProgram" = .ok grid)
    (hrows : rowsWithContent grid = header :: rows) :
    ∃ programs : List Record,
      getProgramsByDatabaseSheetId app databaseSheetId = .ok programs ∧
        List.Forall₂
          (fun row program =>
            (∀ k : String, Record.hasOwn program k = true ↔
                k ∈ header ∧ k ≠ "races" ∧ k ≠ "__proto__") ∧
              ∀ (j : Nat) (k : String), header[j]? = some k →
                (∀ i : Nat, j < i → header[i]? ≠ some k) → k ≠ "races" → k ≠ "__proto__" →
                Record.own program k = some (cellAt row j))
          rows programs := by
  have hprograms : getProgramsByDatabaseSheetId app databaseSheetId =
      .ok (rows.map (fun row => programFromRow row header 0 Record.empty)) := by
    rw [getPrograms_of_grid app databaseSheetId grid hread, hrows]
    rfl
  refine ⟨_, hprograms, ?_⟩
  rw [List.forall₂_map_right_iff, List.forall₂_same]
  intro row _
  constructor
  · intro k
    rw [hasOwn_programFromRow, hasOwn_empty]
    simp
  · intro j k hj hlast hraces hproto
    have := (own_programFromRow row header 0 Record.empty k).2 j hj hlast hraces hproto
    rw [Nat.zero_add] at this
    exact this

/-- Every record of `getresultsFilesByDatabaseSheetId` has as own properties exactly the
non-empty header names other than `__proto__`; in particular none is named by the empty
string. -/
theorem resultsFiles_fields_of_header (app : SpreadsheetApp)
    (RANGE_TABLE_RESULTS_FILE : String) (getBoolean : JSValue → Bool)
    (databaseSheetId : String) (grid : Grid) (header : List String)
    (rows : List (List String))
    (hread : app.displayValues databaseSheetId RANGE_TABLE_RESULTS_FILE = .ok grid)
    (hrows : rowsWithContent grid = header :: rows) :
    ∃ files : List Record,
      getresultsFilesByDatabaseSheetId app RANGE_TABLE_RESULTS_FILE getBoolean databaseSheetId =
          .ok files ∧
        ∀ file ∈ files,
          Record.hasOwn file "" = false ∧
            ∀ k : String, Record.hasOwn file k = true ↔
              k ∈ header ∧ k ≠ "" ∧ k ≠ "__proto__" := by
  have hfiles : getresultsFilesByDatabaseSheetId app RANGE_TABLE_RESULTS_FILE getBoolean
      databaseSheetId =
        .ok (rows.map (fun row => resultsFileFromRow getBoolean row header 0 Record.empty)) := by
    rw [getresultsFiles_of_grid app RANGE_TABLE_RESULTS_FILE getBoolean databaseSheetId grid
      hread, hrows]
    rfl
  refine ⟨_, hfiles, ?_⟩
  intro file hfile
  obtain ⟨row, -, rfl⟩ := List.mem_map.mp hfile
  constructor
  · rw [hasOwn_resultsFileFromRow, hasOwn_empty]
    simp
  · intro k
    rw [hasOwn_resultsFileFromRow, hasOwn_empty]
    simp

/-- For a program table whose header names are pairwise distinct and do not include
`__proto__`, every record has exactly the header names other than "races" as own properties,
and the value under the name of column `i` is the cell of the row in column `i`. -/
theorem programs_positional_mapping (app : SpreadsheetApp) (databaseSheetId : String)
    (grid : Grid) (header : List String) (rows : List (List String))
    (hread : app.displayValues databaseSheetId "TableProgram" = .ok grid)
    (hrows : rowsWithContent grid = header :: rows) (hnd : header.Nodup)
    (hproto : "__proto__" ∉ header) :
    ∃ programs : List Record,
      getProgramsByDatabaseSheetId app databaseSheetId = .ok programs ∧
        List.Forall₂
          (fun row program =>
            (∀ k : String, Record.hasOwn program k = true ↔ k ∈ header ∧ k ≠ "races") ∧
              ∀ (i : Nat) (k : String), header[i]? = some k → k ≠ "races" →
                Record.own program k = some (cellAt row i))
          rows programs := by
  obtain ⟨programs, hprograms, hall⟩ :=
    programs_fields_of_header app databaseSheetId grid header rows hread hrows
  refine ⟨programs, hprograms, hall.imp ?_⟩
  intro row program h
  constructor
  · intro k
    rw [h.1 k]
    constructor
    · exact fun hk => ⟨hk.1, hk.2.1⟩
    · exact fun hk => ⟨hk.1, hk.2, fun e => hproto (e ▸ hk.1)⟩
  · intro i k hi hraces
    exact h.2 i k hi (nodup_last_occurrence header hnd k i hi) hraces
      (fun e => hproto (e ▸ List.getElem?_mem hi))

/-- C12. On the table with header `id`, `__proto__` (pairwise distinct names, none of them
"races") and the row "1", "x", `getProgramsByDatabaseSheetId` returns one record whose only
own property is `id`: the header name `__proto__` is not a field name of the record, and no
property carries the cell "x" of its column. -/
theorem getPrograms_proto_header_dropped :
    protoProgramStore.displayValues "0" "TableProgram" =
        .ok [["id", "__proto__"], ["1", "x"]] ∧
      ["id", "__proto__"].Nodup ∧ "__proto__" ≠ "races" ∧
      getProgramsByDatabaseSheetId protoProgramStore "0" =
        .ok [⟨[("id", JSValue.str "1")]⟩] ∧
      Record.hasOwn ⟨[("id", JSValue.str "1")]⟩ "__proto__" = false ∧
      Record.own ⟨[("id", JSValue.str "1")]⟩ "__proto__" ≠
        some (cellAt ["1", "x"] 1) := by
  refine ⟨rfl, by decide, by decide, by rfl, by decide, by decide⟩

/-- C13. On the table with header `raceID`, `__proto__` and the row "R1", "x",
`getresultsFilesByDatabaseSheetId` returns one record whose only own property is `raceID`:
the non-empty header name `__proto__` is not among the field names of the record. -/
theorem getresultsFiles_proto_header_dropped :
    protoResultsStore.displayValues "0" "TableResultsFile" =
        .ok [["raceID", "__proto__"], ["R1", "x"]] ∧
      "__proto__" ∈ ["raceID", "__proto__"] ∧ "__proto__" ≠ "" ∧
      getresultsFilesByDatabaseSheetId protoResultsStore "TableResultsFile" sampleGetBoolean
          "0" = .ok [⟨[("raceID", JSValue.str "R1")]⟩] ∧
      Record.hasOwn ⟨[("raceID", JSValue.str "R1")]⟩ "__proto__" = false := by
  refine ⟨rfl, by decide, by decide, by rfl, by decide⟩

/-- C18. On the table with header `id`, the empty name, `__proto__` and the row "1", "a",
"x", `getProgramsByDatabaseSheetId` returns one record with the properties `id` and the empty
name, the latter holding the cell "a": the blank name is not skipped, but the header name
`__proto__`, which is not "races", is omitted. -/
theorem getPrograms_blank_name_kept_proto_omitted :
    blankNameProgramStore.displayValues "0" "TableProgram" =
        .ok [["id", "", "__proto__"], ["1", "a", "x"]] ∧
      getProgramsByDatabaseSheetId blankNameProgramStore "0" =
        .ok [⟨[("id", JSValue.str "1"), ("", JSValue.str "a")]⟩] ∧
      Record.own ⟨[("id", JSValue.str "1"), ("", JSValue.str "a")]⟩ "" =
        some (JSValue.str "a") ∧
      "__proto__" ∈ ["id", "", "__proto__"] ∧ "__proto__" ≠ "races" ∧
      Record.hasOwn ⟨[("id", JSValue.str "1"), ("", JSValue.str "a")]⟩ "__proto__" = false := by
  refine ⟨rfl, by rfl, by decide, by decide, by decide, by decide⟩

/-! ## Lemmas: the heap -/

theorem map_sortInsert {α β : Type} (f : α → β) (compareFn : β → β → Option Int) (x : α)
    (l : List α) :
    (sortInsert (fun a b => compareFn (f a) (f b)) x l).map f =
      sortInsert compareFn (f x) (l.map f) := by
  induction l with
  | nil => rfl
  | cons y ys ih =>
    simp only [sortInsert, List.map_cons]
    cases hc : compareFn (f x) (f y) with
    | none => rfl
    | some v =>
      by_cases hv : 0 < v
      · simp only [hv, if_true, List.map_cons, ih]
      · simp only [hv, if_false, List.map_cons]

theorem map_arraySort {α β : Type} (f : α → β) (compareFn : β → β → Option Int) (l : List α) :
    (arraySort (fun a b => compareFn (f a) (f b)) l).map f = arraySort compareFn (l.map f) := by
  induction l with
  | nil => rfl
  | cons x xs ih =>
    simp only [arraySort, List.map_cons]
    rw [map_sortInsert, ih]

theorem array_alloc_old (h : Heap) (elements : List Nat) (address : Nat)
    (ha : address < h.arrays.length) :
    (h.alloc elements).2.array address = h.array address := by
  simp [Heap.alloc, Heap.array, List.getElem?_append_left ha]

theorem array_alloc_new (h : Heap) (elements : List Nat) :
    (h.alloc elements).2.array (h.alloc elements).1 = elements := by
  simp [Heap.alloc, Heap.array]

theorem array_store_other (h : Heap) (address other : Nat) (elements : List Nat)
    (hne : address ≠ other) : (h.store address elements).array other = h.array other := by
  simp [Heap.store, Heap.array, List.getElem?_set_ne hne]

theorem array_store_same (h : Heap) (address : Nat) (elements : List Nat)
    (ha : address < h.arrays.length) : (h.store address elements).array address = elements := by
  simp [Heap.store, Heap.array, ha]

/-! ## Race-program join: what a call leaves untouched -/

/-- C14. On a heap in which `programs` and `programRaceRelationships` are addresses of live
arrays, a call of `getRacePrograms` leaves both arrays with the same elements in the same
order, leaves every object as it was (the race and the program objects among them), and
leaves every other live array as it was: the only array written is the one `filter`
allocated, at a fresh address, which is the one returned, and it holds the result of the
function on the values. -/
theorem getRaceProgramsOnHeap_frame (h : Heap) (programs programRaceRelationships race : Nat)
    (hprograms : programs < h.arrays.length)
    (hrelationships : programRaceRelationships < h.arrays.length) :
    (getRaceProgramsOnHeap h programs programRaceRelationships race).2.array programs =
        h.array programs ∧
      (getRaceProgramsOnHeap h programs programRaceRelationships race).2.array
          programRaceRelationships = h.array programRaceRelationships ∧
      (getRaceProgramsOnHeap h programs programRaceRelationships race).2.objects = h.objects ∧
      (getRaceProgramsOnHeap h programs programRaceRelationships race).2.object race =
        h.object race ∧
      (∀ address : Nat, address < h.arrays.length →
        (getRaceProgramsOnHeap h programs programRaceRelationships race).2.array address =
          h.array address) ∧
      (getRaceProgramsOnHeap h programs programRaceRelationships race).1 = h.arrays.length ∧
      ((getRaceProgramsOnHeap h programs programRaceRelationships race).2.array
          (getRaceProgramsOnHeap h programs programRaceRelationships race).1).map
          (getRaceProgramsOnHeap h programs programRaceRelationships race).2.object =
        getRacePrograms ((h.array programs).map h.object)
          ((h.array programRaceRelationships).map h.object) (h.object race) := by
  have hold : ∀ address : Nat, address < h.arrays.length →
      (getRaceProgramsOnHeap h programs programRaceRelationships race).2.array address =
        h.array address := by
    intro address ha
    unfold getRaceProgramsOnHeap
    simp only []
    rw [array_store_other _ _ _ _ (by simp [Heap.alloc]; omega), array_alloc_old _ _ _ ha]
  have hobjects :
      (getRaceProgramsOnHeap h programs programRaceRelationships race).2.objects = h.objects :=
    rfl
  have hobject : ∀ ref : Nat,
      (getRaceProgramsOnHeap h programs programRaceRelationships race).2.object ref =
        h.object ref := fun _ => rfl
  refine ⟨hold _ hprograms, hold _ hrelationships, hobjects, hobject race, hold, rfl, ?_⟩
  have hfun : (getRaceProgramsOnHeap h programs programRaceRelationships race).2.object =
      h.object := funext hobject
  rw [hfun]
  unfold getRaceProgramsOnHeap
  simp only []
  rw [array_store_same _ _ _ (by simp [Heap.alloc]), array_alloc_new]
  have hobj2 : ∀ elements : List Nat, (h.alloc elements).2.object = h.object := fun _ => rfl
  rw [hobj2]
  unfold getRacePrograms
  rw [map_arraySort h.object
    (fun programA programB : Record => subtract (programA.get "id") (programB.get "id")),
    List.filter_map]
  rfl

theorem getRaceProgramsOnHeap_frame_witness :
    0 < sampleHeap.arrays.length ∧ 1 < sampleHeap.arrays.length ∧
      (getRaceProgramsOnHeap sampleHeap 0 1 4).2.array 0 = sampleHeap.array 0 ∧
      (getRaceProgramsOnHeap sampleHeap 0 1 4).2.array 1 = sampleHeap.array 1 ∧
      sampleHeap.array 0 = [0, 1] ∧
      (getRaceProgramsOnHeap sampleHeap 0 1 4).1 = 2 ∧
      (getRaceProgramsOnHeap sampleHeap 0 1 4).2.array 2 = [1, 0] :=
  ⟨by decide, by decide,
    (getRaceProgramsOnHeap_frame sampleHeap 0 1 4 (by decide) (by decide)).1,
    (getRaceProgramsOnHeap_frame sampleHeap 0 1 4 (by decide) (by decide)).2.1,
    by decide, by decide, by decide⟩

/-! ## Lemmas: sorting an ordered list -/

/-- C15. Two relationship lists that contain the same set of (`programID`, `raceID`) pairs,
in whatever order and with whatever repetitions, give the same output list of
`getRacePrograms` for every list of programs and every race. -/
theorem getRacePrograms_relationships_as_set (programs rels₁ rels₂ : List Record)
    (race : Record)
    (hsame : ∀ programID raceID : JSValue,
      (∃ r ∈ rels₁, r.get "programID" = programID ∧ r.get "raceID" = raceID) ↔
        ∃ r ∈ rels₂, r.get "programID" = programID ∧ r.get "raceID" = raceID) :
    getRacePrograms programs rels₁ race = getRacePrograms programs rels₂ race := by
  have hids : ∀ v : JSValue,
      includes (raceProgramIds rels₁ race) v = includes (raceProgramIds rels₂ race) v := by
    intro v
    rw [Bool.eq_iff_iff, includes_iff, includes_iff, mem_raceProgramIds, mem_raceProgramIds]
    constructor
    · rintro ⟨r, hr, h1, h2⟩
      obtain ⟨r', hr', h2', h1'⟩ := (hsame v (race.get "id")).mp ⟨r, hr, h2, h1⟩
      exact ⟨r', hr', h1', h2'⟩
    · rintro ⟨r, hr, h1, h2⟩
      obtain ⟨r', hr', h2', h1'⟩ := (hsame v (race.get "id")).mpr ⟨r, hr, h2, h1⟩
      exact ⟨r', hr', h1', h2'⟩
  unfold getRacePrograms
  simp only [hids]

theorem getRacePrograms_relationships_as_set_witness :
    (∀ programID raceID : JSValue,
      (∃ r ∈ [(⟨[("programID", JSValue.num 2), ("raceID", JSValue.str "R1")]⟩ : Record),
          ⟨[("programID", JSValue.num 10), ("raceID", JSValue.str "R1")]⟩],
        r.get "programID" = programID ∧ r.get "raceID" = raceID) ↔
      ∃ r ∈ [(⟨[("programID", JSValue.num 10), ("raceID", JSValue.str "R1")]⟩ : Record),
          ⟨[("programID", JSValue.num 2), ("raceID", JSValue.str "R1")]⟩,
          ⟨[("programID", JSValue.num 10), ("raceID", JSValue.str "R1")]⟩],
        r.get "programID" = programID ∧ r.get "raceID" = raceID) ∧
      getRacePrograms [⟨[("id", JSValue.num 10)]⟩, ⟨[("id", JSValue.num 2)]⟩]
          [⟨[("programID", JSValue.num 2), ("raceID", JSValue.str "R1")]⟩,
           ⟨[("programID", JSValue.num 10), ("raceID", JSValue.str "R1")]⟩]
          ⟨[("id", JSValue.str "R1")]⟩ =
        getRacePrograms [⟨[("id", JSValue.num 10)]⟩, ⟨[("id", JSValue.num 2)]⟩]
          [⟨[("programID", JSValue.num 10), ("raceID", JSValue.str "R1")]⟩,
           ⟨[("programID", JSValue.num 2), ("raceID", JSValue.str "R1")]⟩,
           ⟨[("programID", JSValue.num 10), ("raceID", JSValue.str "R1")]⟩]
          ⟨[("id", JSValue.str "R1")]⟩ :=
  have h : ∀ programID raceID : JSValue,
      (∃ r ∈ [(⟨[("programID", JSValue.num 2), ("raceID", JSValue.str "R1")]⟩ : Record),
          ⟨[("programID", JSValue.num 10), ("raceID", JSValue.str "R1")]⟩],
        r.get "programID" = programID ∧ r.get "raceID" = raceID) ↔
      ∃ r ∈ [(⟨[("programID", JSValue.num 10), ("raceID", JSValue.str "R1")]⟩ : Record),
          ⟨[("programID", JSValue.num 2), ("raceID", JSValue.str "R1")]⟩,
          ⟨[("programID", JSValue.num 10), ("raceID", JSValue.str "R1")]⟩],
        r.get "programID" = programID ∧ r.get "raceID" = raceID := by
    intro programID raceID
    simp only [List.exists_mem_cons_iff, List.not_mem_nil, false_and, exists_false, or_false]
    tauto
  ⟨h, getRacePrograms_relationships_as_set _ _ _ _ h⟩

theorem cellAt_ne_num (row : List String) (i : Nat) (n : Int) : cellAt row i ≠ JSValue.num n := by
  unfold cellAt
  cases row[i]? <;> simp

theorem own_resultsFileFromRow_not_num (getBoolean : JSValue → Bool) (row keys : List String)
    (columnIndex : Nat) (resultsFile : Record) (k : String) (hk : k ≠ "active")
    (h : ∀ n : Int, resultsFile.own k ≠ some (JSValue.num n)) :
    ∀ n : Int, (resultsFileFromRow getBoolean row keys columnIndex resultsFile).own k ≠
      some (JSValue.num n) := by
  induction keys generalizing columnIndex resultsFile with
  | nil => exact h
  | cons key rest ih =>
    unfold resultsFileFromRow
    apply ih
    intro n
    by_cases ht : truthy (JSValue.str key) = true
    · rw [if_pos ht]
      by_cases hkey : key = k
      · subst hkey
        by_cases hp : key = "__proto__"
        · rw [hp, own_set_proto, ← hp]
          exact h n
        · rw [own_set_self _ _ _ hp, if_neg hk]
          intro e
          exact cellAt_ne_num row columnIndex n (Option.some.inj e)
      · rw [own_set_ne _ _ _ _ hkey]
        exact h n
    · rw [if_neg ht]
      exact h n

theorem raceID_not_num (getBoolean : JSValue → Bool) (table : Grid) (n : Int) :
    ∀ file ∈ resultsFilesFromTable getBoolean table, file.get "raceID" ≠ JSValue.num n := by
  intro file hfile
  cases table with
  | nil => simp [resultsFilesFromTable] at hfile
  | cons header rows =>
    obtain ⟨row, -, rfl⟩ := List.mem_map.mp hfile
    have h := own_resultsFileFromRow_not_num getBoolean row header 0 Record.empty "raceID"
      (by decide) (fun n => by simp [own_empty])
    unfold Record.get
    cases hown : (resultsFileFromRow getBoolean row header 0 Record.empty).own "raceID" with
    | none => simp
    | some v =>
      intro e
      have e' : v = JSValue.num n := by simpa using e
      exact h n (by rw [hown, e'])

/-! ## Strict membership of `raceID` -/

/-- C19. When the read succeeds and every element of `raceIds` is a number,
`getResultsFilesByRaceIds` returns the empty list: the `raceID` of a record is a display
string (or `undefined`), which `includes` never finds among numbers, whereas `==` holds
between the string "7" and the number 7. -/
theorem getResultsFilesByRaceIds_numbers_match_nothing (app : SpreadsheetApp)
    (RANGE_TABLE_RESULTS_FILE : String) (getBoolean : JSValue → Bool)
    (databaseSheetId : String) (raceIds : List JSValue) (grid : Grid)
    (hread : app.displayValues databaseSheetId RANGE_TABLE_RESULTS_FILE = .ok grid)
    (hnumbers : ∀ v ∈ raceIds, ∃ n : Int, v = JSValue.num n) :
    getResultsFilesByRaceIds app RANGE_TABLE_RESULTS_FILE getBoolean databaseSheetId raceIds =
        .ok [] ∧
      includes [JSValue.num 7] (JSValue.str (decimalString 7)) = false ∧
      looseEquals (JSValue.str (decimalString 7)) (JSValue.num 7) = true := by
  refine ⟨?_, by decide, by decide⟩
  have hfiles : getresultsFilesByDatabaseSheetId app RANGE_TABLE_RESULTS_FILE getBoolean
      databaseSheetId = .ok (resultsFilesFromTable getBoolean (nonBlankRows grid)) := by
    simp [getresultsFilesByDatabaseSheetId, hread]
  have hnone : (resultsFilesFromTable getBoolean (nonBlankRows grid)).filter
      (fun file => includes raceIds (file.get "raceID")) = [] := by
    rw [List.filter_eq_nil_iff]
    intro file hfile hin
    obtain ⟨n, hn⟩ := hnumbers _ ((includes_iff _ _).mp hin)
    exact raceID_not_num getBoolean _ n file hfile hn
  simp [getResultsFilesByRaceIds, hfiles, hnone]

theorem getResultsFilesByRaceIds_numbers_match_nothing_witness :
    (SpreadsheetApp.mk (fun _ _ => .ok [["raceID", "active"], ["7", "TRUE"]])).displayValues
        "0" "TableResultsFile" = .ok [["raceID", "active"], ["7", "TRUE"]] ∧
      (∀ v ∈ [JSValue.num 7], ∃ n : Int, v = JSValue.num n) ∧
      getresultsFilesByDatabaseSheetId
          (SpreadsheetApp.mk (fun _ _ => .ok [["raceID", "active"], ["7", "TRUE"]]))
          "TableResultsFile" sampleGetBoolean "0" =
        .ok [⟨[("raceID", JSValue.str "7"), ("active", JSValue.bool true)]⟩] ∧
      getResultsFilesByRaceIds
          (SpreadsheetApp.mk (fun _ _ => .ok [["raceID", "active"], ["7", "TRUE"]]))
          "TableResultsFile" sampleGetBoolean "0" [JSValue.num 7] = .ok [] :=
  ⟨rfl, fun v hv => ⟨7, by simpa using hv⟩, by rfl,
    (getResultsFilesByRaceIds_numbers_match_nothing
      (SpreadsheetApp.mk (fun _ _ => .ok [["raceID", "active"], ["7", "TRUE"]]))
      "TableResultsFile" sampleGetBoolean "0" [JSValue.num 7]
      [["raceID", "active"], ["7", "TRUE"]] rfl (fun v hv => ⟨7, by simpa using hv⟩)).1⟩

end DataCraft
